import Mathlib

/-!
storiOnLambda: transaction summary and mail composition.

A shallow embedding of `cmd/functions.go` and `cmd/main.go` (package `main`):
`convertTransactions`, the four `calculate*` aggregates, `getSummary` and
`buildMail`, together with executable models of the Go standard-library
routines they call (`time.Parse` / `Time.Format` for the layout `2006-01-02`,
`strconv.ParseFloat`, `float64` arithmetic, `fmt.Sprintf` with `%.2f`,
`base64.StdEncoding`).

Conventions.
* A Go `string` is a Lean `String`; a `[]byte` payload is a list of `Byte`s.
* A Go `error` result is an `Option GoError`, `none` being `nil`.
* A Go `map[string]int` is an association list with distinct keys; the order in
  which `range` visits it is not fixed by the language and is an explicit
  argument (`MapRange`) of the code that ranges over one.
-/

set_option maxRecDepth 100000
set_option exponentiation.threshold 100000

namespace Stori

/-! ## `float64` -/

/-- Go `float64`: an IEEE 754 binary64 value. `fin neg m e` stands for
`(-1)^neg * m * 2^e`; the values produced by the operations below are canonical
(`2^52 ≤ m < 2^53` and `-1074 ≤ e ≤ 971`, or `m < 2^52` and `e = -1074`).
All NaNs are identified. -/
inductive F64 where
  | nan : F64
  | inf (neg : Bool) : F64
  | fin (neg : Bool) (m : Nat) (e : Int) : F64
  deriving DecidableEq, Repr

namespace F64

/-- Positive zero, the zero value of a Go `float64`. -/
def zero : F64 := fin false 0 (-1074)

/-- Number of binary digits of `n`, by halving at most `fuel` times. -/
def bitLenAux : Nat → Nat → Nat
  | 0, _ => 0
  | fuel + 1, n => if n = 0 then 0 else bitLenAux fuel (n / 2) + 1

/-- Number of binary digits of `n` (`0` for `0`). -/
def bitLen (n : Nat) : Nat := bitLenAux n n

/-- Numerator and denominator of `n / d / 2^e`. -/
def scale (n d : Nat) (e : Int) : Nat × Nat :=
  if 0 ≤ e then (n, d * 2 ^ e.toNat) else (n * 2 ^ (-e).toNat, d)

/-- Round the quotient `N / D` to an integer, ties to even. -/
def roundHalfEven (N D : Nat) : Nat :=
  if 2 * (N % D) > D ∨ (2 * (N % D) = D ∧ (N / D) % 2 = 1) then N / D + 1 else N / D

/-- The binary64 value nearest to `(-1)^neg * n / d` (ties to even, `±Inf` on
overflow): IEEE 754 round-to-nearest-even. `d` is not `0`. -/
def round (neg : Bool) (n d : Nat) : F64 :=
  if n = 0 then fin neg 0 (-1074)
  else
    let e1 : Int := max ((bitLen n : Int) - (bitLen d : Int) - 53) (-1074)
    let e : Int := if (scale n d e1).1 / (scale n d e1).2 < 2 ^ 53 then e1 else e1 + 1
    let m := roundHalfEven (scale n d e).1 (scale n d e).2
    let m2 := if m = 2 ^ 53 then 2 ^ 52 else m
    let e2 : Int := if m = 2 ^ 53 then e + 1 else e
    if e2 > 971 then inf neg else fin neg m2 e2

/-- Conversion `float64(n)` of a non-negative `int`. -/
def ofNat (n : Nat) : F64 := round false n 1

/-- The `float64` of the decimal constant `(-1)^neg * digits / 10^places`, as the
Go compiler converts a literal such as `12.45` or `-1.80`. -/
def ofDecimal (neg : Bool) (digits places : Nat) : F64 := round neg digits (10 ^ places)

/-- The integer `±m * 2^(e - emin)`. -/
def signedAt (neg : Bool) (m : Nat) (e emin : Int) : Int :=
  if neg then -((m * 2 ^ (e - emin).toNat : Nat) : Int) else ((m * 2 ^ (e - emin).toNat : Nat) : Int)

/-- IEEE 754 addition, Go `x + y`. -/
def add : F64 → F64 → F64
  | nan, _ => nan
  | _, nan => nan
  | inf a, inf b => if a = b then inf a else nan
  | inf a, fin _ _ _ => inf a
  | fin _ _ _, inf b => inf b
  | fin s1 m1 e1, fin s2 m2 e2 =>
    let emin := min e1 e2
    let s : Int := signedAt s1 m1 e1 emin + signedAt s2 m2 e2 emin
    if s = 0 then fin (s1 && s2) 0 (-1074)
    else round (decide (s < 0)) (scale s.natAbs 1 (-emin)).1 (scale s.natAbs 1 (-emin)).2

/-- IEEE 754 division, Go `x / y`. -/
def div : F64 → F64 → F64
  | nan, _ => nan
  | _, nan => nan
  | inf _, inf _ => nan
  | inf a, fin b _ _ => inf (xor a b)
  | fin a _ _, inf b => fin (xor a b) 0 (-1074)
  | fin s1 m1 e1, fin s2 m2 e2 =>
    if m2 = 0 then (if m1 = 0 then nan else inf (xor s1 s2))
    else round (xor s1 s2) (m1 * 2 ^ (e1 - e2).toNat) (m2 * 2 ^ (e2 - e1).toNat)

/-- Go `x < y` on `float64`; false as soon as an operand is NaN. -/
def lt : F64 → F64 → Bool
  | nan, _ => false
  | _, nan => false
  | inf a, inf b => a && !b
  | inf a, fin _ _ _ => a
  | fin _ _ _, inf b => !b
  | fin s1 m1 e1, fin s2 m2 e2 =>
    decide (signedAt s1 m1 e1 (min e1 e2) < signedAt s2 m2 e2 (min e1 e2))

/-- Decimal digits of `n`, left-padded with zeros to `width`. -/
def padZero (width n : Nat) : String :=
  String.mk (List.replicate (width - (Nat.repr n).length) '0') ++ Nat.repr n

/-- Go `fmt.Sprintf("%.2f", x)`: the exact value rounded to two decimals, ties
to even; `NaN`, `+Inf` and `-Inf` for the special values. -/
def format2 : F64 → String
  | nan => "NaN"
  | inf false => "+Inf"
  | inf true => "-Inf"
  | fin neg m e =>
    let c := roundHalfEven (scale (m * 100) 1 (-e)).1 (scale (m * 100) 1 (-e)).2
    (if neg then "-" else "") ++ Nat.repr (c / 100) ++ "." ++ padZero 2 (c % 100)

/-- Whether the value is `+0` or `-0`. -/
def isZero : F64 → Bool
  | fin _ 0 _ => true
  | _ => false

/-- Sum of a sequence of `float64`s accumulated from `+0` in sequence order. -/
def sum (xs : List F64) : F64 := xs.foldl add zero

end F64

/-! ## Errors, time and maps -/

/-- A non-nil Go `error`. -/
inductive GoError where
  | ErrSyntax : GoError
  | ErrRange : GoError
  | ParseError (msg : String) : GoError
  deriving DecidableEq, Repr

/-- The calendar part of a Go `time.Time` at midnight UTC, all that the layout
`2006-01-02` reads or prints. -/
structure Time where
  year : Nat
  month : Nat
  day : Nat
  deriving DecidableEq, Repr

/-- The zero `time.Time{}`: January 1, year 1. -/
def Time.zero : Time := ⟨1, 1, 1⟩

/-- Go `isLeap`. -/
def isLeap (year : Nat) : Bool := year % 4 == 0 && (year % 100 != 0 || year % 400 == 0)

/-- Go `daysIn`. -/
def daysIn (month year : Nat) : Nat :=
  if month = 2 then (if isLeap year then 29 else 28)
  else if month = 4 ∨ month = 6 ∨ month = 9 ∨ month = 11 then 30 else 31

/-- Value of a decimal digit character. -/
def digitVal (c : Char) : Nat := c.toNat - 48

/-- Go `getnum(s, true)`: exactly two leading digits. -/
def getnum2 : List Char → Option (Nat × List Char)
  | a :: b :: rest =>
    if a.isDigit && b.isDigit then some (digitVal a * 10 + digitVal b, rest) else none
  | _ => none

/-- The year of layout element `2006`: exactly four leading digits. -/
def getYear : List Char → Option (Nat × List Char)
  | a :: b :: c :: d :: rest =>
    if a.isDigit && b.isDigit && c.isDigit && d.isDigit then
      some (digitVal a * 1000 + digitVal b * 100 + digitVal c * 10 + digitVal d, rest)
    else none
  | _ => none

/-- Go `skip(value, "-")`. -/
def skipDash : List Char → Option (List Char)
  | '-' :: rest => some rest
  | _ => none

/-- Go `time.Parse("2006-01-02", value)`: the parsed date and a nil error, or
`Time{}` and an error. -/
def time_Parse (value : String) : Time × Option GoError :=
  match getYear value.toList with
  | none => (Time.zero, some (.ParseError "cannot parse year"))
  | some (year, v1) =>
    match skipDash v1 with
    | none => (Time.zero, some (.ParseError "cannot parse separator"))
    | some v2 =>
      match getnum2 v2 with
      | none => (Time.zero, some (.ParseError "cannot parse month"))
      | some (month, v3) =>
        if month = 0 ∨ 12 < month then (Time.zero, some (.ParseError "month out of range"))
        else
          match skipDash v3 with
          | none => (Time.zero, some (.ParseError "cannot parse separator"))
          | some v4 =>
            match getnum2 v4 with
            | none => (Time.zero, some (.ParseError "cannot parse day"))
            | some (day, v5) =>
              if v5 ≠ [] then (Time.zero, some (.ParseError "extra text"))
              else if day < 1 ∨ day > daysIn month year then
                (Time.zero, some (.ParseError "day out of range"))
              else (⟨year, month, day⟩, none)

/-- The character of the decimal digit `n`. -/
def digitChar (n : Nat) : Char := Char.ofNat (48 + n)

/-- Go `appendInt(b, x, width)` for `x ≥ 0`: the decimal digits of `x` zero-padded
to `width`, with Go's direct paths for two- and four-digit fields. -/
def appendInt (x width : Nat) : String :=
  if width = 2 ∧ x < 100 then String.mk [digitChar (x / 10), digitChar (x % 10)]
  else if width = 4 ∧ x < 10000 then
    String.mk [digitChar (x / 100 / 10), digitChar (x / 100 % 10),
               digitChar (x % 100 / 10), digitChar (x % 100 % 10)]
  else F64.padZero width x

/-- Go `t.Format("2006-01-02")`. -/
def time_Format (t : Time) : String :=
  appendInt t.year 4 ++ "-" ++ appendInt t.month 2 ++ "-" ++ appendInt t.day 2

/-- Go `time.Month(m).String()`. -/
def monthString (m : Nat) : String :=
  match m with
  | 1 => "January" | 2 => "February" | 3 => "March" | 4 => "April"
  | 5 => "May" | 6 => "June" | 7 => "July" | 8 => "August"
  | 9 => "September" | 10 => "October" | 11 => "November" | 12 => "December"
  | n => "%!Month(" ++ Nat.repr n ++ ")"

/-- A Go `map[string]int`: its entries, keys distinct. -/
abbrev GoMap := List (String × Nat)

/-- Go `m[k]`: the stored count, `0` for a missing key. -/
def GoMap.get (m : GoMap) (k : String) : Nat := (m.lookup k).getD 0

/-- Go `m[k]++`. -/
def GoMap.incr : GoMap → String → GoMap
  | [], k => [(k, 1)]
  | (k', v) :: rest, k => if k' = k then (k', v + 1) :: rest else (k', v) :: GoMap.incr rest k

/-- One `for key, value := range m` loop: the sequence in which the entries are
visited. Go leaves the order unspecified; each entry is visited once. -/
structure MapRange where
  visit : GoMap → GoMap
  perm : ∀ m, (visit m).Perm m

/-- The iteration that visits the entries in order of first insertion. -/
def MapRange.insertionOrder : MapRange := ⟨fun m => m, fun m => List.Perm.refl m⟩

/-- The iteration that visits the entries in reverse order of first insertion. -/
def MapRange.reverseOrder : MapRange := ⟨fun m => m.reverse, fun m => List.reverse_perm m⟩

/-! ## `cmd/main.go`, `cmd/functions.go` -/

/-- Go `type Transaction struct { Id string; Date string; Amount float64 }`. -/
structure Transaction where
  Id : String
  Date : String
  Amount : F64
  deriving DecidableEq, Repr

/-- The zero value `var rec Transaction`. -/
def Transaction.zero : Transaction := ⟨"", "", F64.zero⟩

/-- Loop of `calculateTotalBalance`: `total += transaction.Amount`. -/
def totalBalanceLoop : List Transaction → F64 → F64
  | [], total => total
  | transaction :: rest, total => totalBalanceLoop rest (F64.add total transaction.Amount)

/-- Go `calculateTotalBalance`. -/
def calculateTotalBalance (transactionList : List Transaction) : F64 × Option GoError :=
  (totalBalanceLoop transactionList F64.zero, none)

/-- Loop of `calculateTransactionsPerMonth`. -/
def transactionsPerMonthLoop : List Transaction → GoMap → GoMap
  | [], transactionsPerMonth => transactionsPerMonth
  | transaction :: rest, transactionsPerMonth =>
    let date := (time_Parse transaction.Date).1
    transactionsPerMonthLoop rest (transactionsPerMonth.incr (monthString date.month))

/-- Go `calculateTransactionsPerMonth`. -/
def calculateTransactionsPerMonth (transactionList : List Transaction) :
    GoMap × Option GoError :=
  (transactionsPerMonthLoop transactionList [], none)

/-- Loop of `calculateAverageDebit`: counter and running sum. -/
def averageDebitLoop : List Transaction → Nat → F64 → Nat × F64
  | [], counter, average => (counter, average)
  | transaction :: rest, counter, average =>
    if F64.lt transaction.Amount F64.zero then
      averageDebitLoop rest (counter + 1) (F64.add average transaction.Amount)
    else averageDebitLoop rest counter average

/-- Go `calculateAverageDebit`. -/
def calculateAverageDebit (transactionList : List Transaction) : F64 × Option GoError :=
  let r := averageDebitLoop transactionList 0 F64.zero
  (F64.div r.2 (F64.ofNat r.1), none)

/-- Loop of `calculateAverageCredit`: counter and running sum. -/
def averageCreditLoop : List Transaction → Nat → F64 → Nat × F64
  | [], counter, average => (counter, average)
  | transaction :: rest, counter, average =>
    if F64.lt F64.zero transaction.Amount then
      averageCreditLoop rest (counter + 1) (F64.add average transaction.Amount)
    else averageCreditLoop rest counter average

/-- Go `calculateAverageCredit`. -/
def calculateAverageCredit (transactionList : List Transaction) : F64 × Option GoError :=
  let r := averageCreditLoop transactionList 0 F64.zero
  (F64.div r.2 (F64.ofNat r.1), none)

/-! ## `strconv.ParseFloat` -/

/-- Go `lower(c)`, that is `c | ('x' - 'X')`, as a character code. -/
def lower (c : Char) : Nat := c.toNat ||| 32

/-- Go `commonPrefixLenIgnoreCase(s, pat)` for a lower-case `pat`. -/
def commonPrefixLenIgnoreCase : List Char → List Char → Nat
  | c :: s, p :: pat =>
    if (if 65 ≤ c.toNat ∧ c.toNat ≤ 90 then c.toNat + 32 else c.toNat) ≠ p.toNat then 0
    else commonPrefixLenIgnoreCase s pat + 1
  | _, _ => 0

/-- The tail of Go `special` shared by the signed and unsigned spellings of
infinity: the value and the unread input. -/
def specialInf (neg : Bool) (s : List Char) : Option (F64 × List Char) :=
  let n := commonPrefixLenIgnoreCase s "infinity".toList
  let n := if 3 < n ∧ n < 8 then 3 else n
  if n = 3 ∨ n = 8 then some (F64.inf neg, s.drop n) else none

/-- Go `special(s)`: the spellings of infinity and NaN, with the unread input. -/
def special : List Char → Option (F64 × List Char)
  | [] => none
  | c :: rest =>
    if c = '+' then specialInf false rest
    else if c = '-' then specialInf true rest
    else if c = 'i' ∨ c = 'I' then specialInf false (c :: rest)
    else if c = 'n' ∨ c = 'N' then
      (if commonPrefixLenIgnoreCase (c :: rest) "nan".toList = 3 then some (F64.nan, rest.drop 2)
       else none)
    else none

/-- State of the digit loop of Go `readFloat`. The mantissa keeps every digit
(Go keeps 19 and a truncation flag, from which it rounds to the same value). -/
structure FloatDigits where
  mantissa : Nat
  nd : Nat
  dp : Int
  sawdot : Bool
  sawdigits : Bool
  underscores : Bool
  deriving DecidableEq, Repr

/-- The digit loop of Go `readFloat`, returning the final state and the unread input. -/
def readDigits (base : Nat) : List Char → FloatDigits → FloatDigits × List Char
  | [], st => (st, [])
  | c :: rest, st =>
    if c = '_' then readDigits base rest { st with underscores := true }
    else if c = '.' then
      (if st.sawdot then (st, c :: rest)
       else readDigits base rest { st with sawdot := true, dp := st.nd })
    else if c.isDigit then
      (if c = '0' ∧ st.nd = 0 then
         readDigits base rest { st with sawdigits := true, dp := st.dp - 1 }
       else
         readDigits base rest { st with sawdigits := true, nd := st.nd + 1,
                                        mantissa := st.mantissa * base + digitVal c })
    else if base = 16 ∧ 97 ≤ lower c ∧ lower c ≤ 102 then
      readDigits base rest { st with sawdigits := true, nd := st.nd + 1,
                                     mantissa := st.mantissa * 16 + (lower c - 97 + 10) }
    else (st, c :: rest)

/-- The exponent-digit loop of Go `readFloat`: the exponent (no longer updated
once it reaches `10000`), whether an underscore was seen, the unread input. -/
def readExpDigits : List Char → Nat → Bool → Nat × Bool × List Char
  | [], e, us => (e, us, [])
  | c :: rest, e, us =>
    if c = '_' then readExpDigits rest e true
    else if c.isDigit then readExpDigits rest (if e < 10000 then e * 10 + digitVal c else e) us
    else (e, us, c :: rest)

/-- The loop of Go `underscoreOK`; `saw` is the kind of the last character. -/
def underscoreLoop (hex : Bool) : List Char → Char → Bool
  | [], saw => saw != '_'
  | c :: rest, saw =>
    if c.isDigit || (hex && decide (97 ≤ lower c) && decide (lower c ≤ 102)) then
      underscoreLoop hex rest '0'
    else if c = '_' then (if saw != '0' then false else underscoreLoop hex rest '_')
    else if saw = '_' then false
    else underscoreLoop hex rest '!'

/-- Go `underscoreOK(s)`: underscores only between digits or after a base mark. -/
def underscoreOK (s : List Char) : Bool :=
  let s1 := match s with
    | '-' :: r => r
    | '+' :: r => r
    | _ => s
  match s1 with
  | '0' :: x :: r =>
    if lower x = 98 ∨ lower x = 111 ∨ lower x = 120 then underscoreLoop (lower x = 120) r '0'
    else underscoreLoop false s1 '^'
  | _ => underscoreLoop false s1 '^'

/-- Result of Go `readFloat`: the number is `(-1)^neg * mantissa * b^exp` with
`b = 2` for a hexadecimal literal and `b = 10` otherwise. -/
structure FloatParts where
  mantissa : Nat
  exp : Int
  neg : Bool
  hex : Bool
  rest : List Char
  deriving DecidableEq, Repr

/-- The optional exponent of Go `readFloat`: the amount added to `dp`, whether
an underscore was seen, the unread input; `none` for a malformed exponent or a
hexadecimal mantissa without one. -/
def readExponent (hex : Bool) : List Char → Option (Int × Bool × List Char)
  | [] => if hex then none else some (0, false, [])
  | c :: s =>
    if lower c = (if hex then 112 else 101) then
      match s with
      | [] => none
      | d :: t =>
        let esign : Int := if d = '-' then -1 else 1
        let digits := if d = '+' ∨ d = '-' then t else d :: t
        match digits with
        | [] => none
        | d0 :: _ =>
          if d0.isDigit then
            let r := readExpDigits digits 0 false
            some ((r.1 : Int) * esign, r.2.1, r.2.2)
          else none
    else if hex then none
    else some (0, false, c :: s)

/-- Go `readFloat(s)`. -/
def readFloat (s : List Char) : Option FloatParts :=
  if s = [] then none
  else
    let neg := s.head? = some '-'
    let s1 := if s.head? = some '+' ∨ s.head? = some '-' then s.tail else s
    let hex := match s1 with
      | '0' :: x :: _ :: _ => decide (lower x = 120)
      | _ => false
    let s2 := if hex then s1.drop 2 else s1
    let r := readDigits (if hex then 16 else 10) s2 ⟨0, 0, 0, false, false, false⟩
    let st := r.1
    if !st.sawdigits then none
    else
      let dp0 : Int := if st.sawdot then st.dp else st.nd
      let dp1 : Int := if hex then dp0 * 4 else dp0
      let ndMant : Int := if hex then (st.nd : Int) * 4 else st.nd
      match readExponent hex r.2 with
      | none => none
      | some (e, us, rest) =>
        if (st.underscores || us) && !underscoreOK (s.take (s.length - rest.length)) then none
        else some ⟨st.mantissa, if st.mantissa ≠ 0 then dp1 + e - ndMant else 0, neg, hex, rest⟩

/-- The `float64` nearest to the number read, ties to even (the rounding
`strconv` documents: IEEE 754 unbiased rounding). -/
def floatValue (p : FloatParts) : F64 :=
  if 0 ≤ p.exp then F64.round p.neg (p.mantissa * (if p.hex then 2 else 10) ^ p.exp.toNat) 1
  else F64.round p.neg p.mantissa ((if p.hex then 2 else 10) ^ (-p.exp).toNat)

/-- Go `strconv.ParseFloat(s, 64)`: `0` and `ErrSyntax` for a malformed `s`,
`±Inf` and `ErrRange` for a well-formed number out of range. -/
def strconv_ParseFloat (s : String) : F64 × Option GoError :=
  match special s.toList with
  | some (v, rest) => if rest ≠ [] then (F64.zero, some .ErrSyntax) else (v, none)
  | none =>
    match readFloat s.toList with
    | none => (F64.zero, some .ErrSyntax)
    | some p =>
      if p.rest ≠ [] then (F64.zero, some .ErrSyntax)
      else
        match floatValue p with
        | F64.inf neg => (F64.inf neg, some .ErrRange)
        | v => (v, none)

/-! ## `convertTransactions` -/

/-- One pass of `switch j` in `convertTransactions`. -/
def setField (r : Transaction) (j : Nat) (field : String) : Transaction :=
  match j with
  | 0 => { r with Id := field }
  | 1 => { r with Date := time_Format (time_Parse field).1 }
  | 2 => { r with Amount := (strconv_ParseFloat field).1 }
  | _ => r

/-- The loop `for j, field := range line` of `convertTransactions`. -/
def convertFields : Nat → List String → Transaction → Transaction
  | _, [], r => r
  | j, field :: rest, r => convertFields (j + 1) rest (setField r j field)

/-- The loop `for i, line := range data` of `convertTransactions`. -/
def convertLines : Nat → List (List String) → List Transaction → List Transaction
  | _, [], transactions => transactions
  | i, line :: rest, transactions =>
    if i > 0 then
      convertLines (i + 1) rest (transactions ++ [convertFields 0 line Transaction.zero])
    else convertLines (i + 1) rest transactions

/-- Go `convertTransactions`. -/
def convertTransactions (data : List (List String)) (_ulid : String) : List Transaction :=
  convertLines 0 data []

/-! ## `getSummary` -/

/-- The line `fmt.Sprintf("Number of transactions in %v: %v\n", key, value)`. -/
def monthLine (kv : String × Nat) : String :=
  "Number of transactions in " ++ kv.1 ++ ": " ++ Nat.repr kv.2 ++ "\n"

/-- Go `getSummary`; `range` is the iteration of the month map. -/
def getSummary (range : MapRange) (transactionList : List Transaction) :
    List String × Option GoError :=
  let summary : List String := []
  match calculateTotalBalance transactionList with
  | (_, some e) => ([], some e)
  | (totalBalance, none) =>
    let summary := summary ++ ["Total balance is: " ++ F64.format2 totalBalance]
    match calculateTransactionsPerMonth transactionList with
    | (_, some e) => ([], some e)
    | (transactionsPerMonth, none) =>
      let summary := summary ++ (range.visit transactionsPerMonth).map monthLine
      match calculateAverageDebit transactionList with
      | (_, some e) => ([], some e)
      | (averageDebit, none) =>
        let summary := summary ++ ["Average debit amount: " ++ F64.format2 averageDebit]
        match calculateAverageCredit transactionList with
        | (_, some e) => ([], some e)
        | (averageCredit, none) =>
          let summary := summary ++ ["Average credit amount: " ++ F64.format2 averageCredit]
          (summary, none)

/-! ## `base64.StdEncoding` and `buildMail` -/

/-- A Go `byte`. -/
abbrev Byte := Fin 256

/-- The alphabet `encodeStd` of `base64.StdEncoding`. -/
def encodeStd : List Char :=
  "ABCDEFGHIJKLMNOPQRSTUVWXYZabcdefghijklmnopqrstuvwxyz0123456789+/".toList

/-- The character `enc.encode[i]`. -/
def encodeChar (i : Nat) : Char := encodeStd.getD i 'A'

/-- The entry `enc.decodeMap[c]`: the index of `c` in the alphabet, if any. -/
def decodeChar (c : Char) : Option Nat :=
  if encodeStd.indexOf c < 64 then some (encodeStd.indexOf c) else none

/-- Go `base64.StdEncoding.Encode`: three bytes make the 24-bit `val` and four
characters; a final block of one or two bytes is padded with `=`. -/
def base64_Encode : List Byte → List Char
  | [] => []
  | [a] =>
    let val := a.val * 65536
    [encodeChar (val / 262144 % 64), encodeChar (val / 4096 % 64), '=', '=']
  | [a, b] =>
    let val := a.val * 65536 + b.val * 256
    [encodeChar (val / 262144 % 64), encodeChar (val / 4096 % 64), encodeChar (val / 64 % 64), '=']
  | a :: b :: c :: rest =>
    let val := a.val * 65536 + b.val * 256 + c.val
    encodeChar (val / 262144 % 64) :: encodeChar (val / 4096 % 64) ::
      encodeChar (val / 64 % 64) :: encodeChar (val % 64) :: base64_Encode rest

/-- The byte `byte(n)`. -/
def toByte (n : Nat) : Byte := ⟨n % 256, Nat.mod_lt n (by decide)⟩

/-- Decoding of the quanta of four characters, the last one possibly padded. -/
def decodeQuanta : List Char → Option (List Byte)
  | [] => some []
  | [c0, c1, '=', '='] =>
    match decodeChar c0, decodeChar c1 with
    | some d0, some d1 => some [toByte ((d0 * 262144 + d1 * 4096) / 65536)]
    | _, _ => none
  | [c0, c1, c2, '='] =>
    match decodeChar c0, decodeChar c1, decodeChar c2 with
    | some d0, some d1, some d2 =>
      some [toByte ((d0 * 262144 + d1 * 4096 + d2 * 64) / 65536),
            toByte ((d0 * 262144 + d1 * 4096 + d2 * 64) / 256)]
    | _, _, _ => none
  | c0 :: c1 :: c2 :: c3 :: rest =>
    match decodeChar c0, decodeChar c1, decodeChar c2, decodeChar c3, decodeQuanta rest with
    | some d0, some d1, some d2, some d3, some bytes =>
      some (toByte ((d0 * 262144 + d1 * 4096 + d2 * 64 + d3) / 65536) ::
            toByte ((d0 * 262144 + d1 * 4096 + d2 * 64 + d3) / 256) ::
            toByte (d0 * 262144 + d1 * 4096 + d2 * 64 + d3) :: bytes)
    | _, _, _, _, _ => none
  | _ => none

/-- Go `base64.StdEncoding.DecodeString`: carriage returns and line feeds are
skipped, the rest is decoded quantum by quantum; `none` for corrupt input. -/
def base64_Decode (s : List Char) : Option (List Byte) :=
  decodeQuanta (s.filter (fun c => c != '\r' && c != '\n'))

/-- Go `type Mail struct`. -/
structure Mail where
  Sender : String
  To : List String
  Subject : String
  Body : String
  deriving DecidableEq, Repr

/-- The constant `boundary` of `buildMail`. -/
def boundary : String := "my-boundary-779"

/-- What `buildMail` writes before the template output: the message header and
the header of part 1. -/
def mailHead (mail : Mail) : String :=
  "From: " ++ mail.Sender ++ "\r\n" ++
  "To: " ++ String.intercalate ";" mail.To ++ "\r\n" ++
  "Subject: " ++ mail.Subject ++ "\r\n" ++
  "MIME-Version: 1.0\r\n" ++
  "Content-Type: multipart/mixed; boundary=" ++ boundary ++ "\n" ++
  "\r\n--" ++ boundary ++ "\r\n" ++
  "MIME-version: 1.0;\nContent-Type: text/html; charset=\"UTF-8\";\n\n"

/-- The header block of part 2 written by `buildMail`, through the blank line
after `Content-ID`. -/
def part2Header : String :=
  "\r\n--" ++ boundary ++ "\r\n" ++
  "Content-Type: text/plain; charset=\"utf-8\"\r\n" ++
  "Content-Transfer-Encoding: base64\r\n" ++
  "Content-Disposition: attachment; filename=transactions.csv\r\n" ++
  "Content-ID: <transactions.csv>\r\n\r\n"

/-- The closing terminator written by `buildMail`. -/
def terminator : String := "\r\n--" ++ boundary ++ "--"

/-- Go `buildMail`. The template collaborator (`getFileFromS3`,
`template.ParseFiles`, `t.Execute`) is the argument `render`: applied to the
name and the summary it gives the text `Execute` writes into the buffer, or
`none` when the template cannot be obtained, in which case `buildMail` does not
return (`log.Fatal`, or a nil template). The message is kept as text. -/
def buildMail (render : String → List String → Option String) (name : String)
    (summary : List String) (mail : Mail) (fileByte : List Byte) : Option String :=
  match render name summary with
  | none => none
  | some html =>
    some (mailHead mail ++ html ++ part2Header ++ String.mk (base64_Encode fileByte) ++ terminator)

/-! ## Specification-side notions -/

/-- A `YYYY-MM-DD` string naming a date of the calendar: four digits, `-`, two
digits, `-`, two digits, month in `1..12`, day in `1..daysIn`. Gives the year,
month and day. -/
def isoDate (s : String) : Option Time :=
  match s.toList with
  | [y1, y2, y3, y4, '-', m1, m2, '-', d1, d2] =>
    if y1.isDigit ∧ y2.isDigit ∧ y3.isDigit ∧ y4.isDigit ∧ m1.isDigit ∧ m2.isDigit ∧
        d1.isDigit ∧ d2.isDigit ∧
        1 ≤ digitVal m1 * 10 + digitVal m2 ∧ digitVal m1 * 10 + digitVal m2 ≤ 12 ∧
        1 ≤ digitVal d1 * 10 + digitVal d2 ∧
        digitVal d1 * 10 + digitVal d2 ≤
          daysIn (digitVal m1 * 10 + digitVal m2)
            (digitVal y1 * 1000 + digitVal y2 * 100 + digitVal y3 * 10 + digitVal y4) then
      some ⟨digitVal y1 * 1000 + digitVal y2 * 100 + digitVal y3 * 10 + digitVal y4,
            digitVal m1 * 10 + digitVal m2, digitVal d1 * 10 + digitVal d2⟩
    else none
  | _ => none

/-- The shape `YYYY-MM-DD`: four digits, `-`, two digits, `-`, two digits. -/
def isIsoShape (s : String) : Bool :=
  match s.toList with
  | [y1, y2, y3, y4, '-', m1, m2, '-', d1, d2] =>
    y1.isDigit && y2.isDigit && y3.isDigit && y4.isDigit && m1.isDigit && m2.isDigit &&
      d1.isDigit && d2.isDigit
  | _ => false

/-- A decimal numeral: an optional sign, digits with at most one decimal point
and at least one digit, and an optional exponent `e` or `E` with an optional
sign and at least one digit. -/
def isDecimalNumeral (s : String) : Bool :=
  let body := match s.toList with
    | '+' :: r => r
    | '-' :: r => r
    | r => r
  let mant := body.takeWhile (fun c => c.isDigit || c == '.')
  let rest := body.dropWhile (fun c => c.isDigit || c == '.')
  mant.any Char.isDigit && Nat.ble (mant.count '.') 1 &&
    (match rest with
     | [] => true
     | e :: r =>
       (e == 'e' || e == 'E') &&
         (match r with
          | '+' :: t => !t.isEmpty && t.all Char.isDigit
          | '-' :: t => !t.isEmpty && t.all Char.isDigit
          | t => !t.isEmpty && t.all Char.isDigit))

/-- The calendar month a transaction is counted in: that of its `Date` when it
is a `YYYY-MM-DD` date, `none` when it is not. -/
def monthOf (t : Transaction) : Option String :=
  (isoDate t.Date).map (fun d => monthString d.month)

/-- The key `calculateTransactionsPerMonth` increments for a transaction. -/
def monthKey (t : Transaction) : String := monthString (time_Parse t.Date).1.month

/-- The twelve month names. -/
def monthNames : List String :=
  ["January", "February", "March", "April", "May", "June", "July", "August",
   "September", "October", "November", "December"]

/-- Two transactions dated in February of two different years. -/
def twoFebruaries : List Transaction :=
  [⟨"1", "2022-02-10", F64.zero⟩, ⟨"2", "2023-02-01", F64.zero⟩]

/-- A transaction whose `Date` is empty, as `convertTransactions` builds from a
one-column row. -/
def undated : List Transaction := [⟨"1", "", F64.zero⟩]

/-- The amounts that are debits (`< 0`), in list order. -/
def debits (xs : List Transaction) : List F64 :=
  (xs.map Transaction.Amount).filter (fun a => F64.lt a F64.zero)

/-- The amounts that are credits (`> 0`), in list order. -/
def credits (xs : List Transaction) : List F64 :=
  (xs.map Transaction.Amount).filter (fun a => F64.lt F64.zero a)

/-- The record the positional mapping builds from a row: column 0 is the id,
column 1 the date, column 2 the amount; a missing column leaves the zero value. -/
def recordOfRow (row : List String) : Transaction :=
  { Id := (row[0]?).getD ""
    Date := match row[1]? with
      | some field => time_Format (time_Parse field).1
      | none => ""
    Amount := match row[2]? with
      | some field => (strconv_ParseFloat field).1
      | none => F64.zero }

/-- The transactions of `Test_getSummary`. -/
def testTransactions : List Transaction :=
  [⟨"1", "2023-02-01", F64.ofDecimal false 100 1⟩,
   ⟨"2", "2023-02-01", F64.ofDecimal false 1245 2⟩,
   ⟨"3", "2023-03-01", F64.ofDecimal true 180 2⟩]

/-- The lines `Test_getSummary` expects. -/
def testWant : List String :=
  ["Total balance is: 20.65", "Number of transactions in February: 2",
   "Number of transactions in March: 1", "Average debit amount: -1.80",
   "Average credit amount: 11.22"]

/-- A dataset whose rows have a single column. -/
def oneColumnData : List (List String) := [["id"], ["1"]]

/-- A dataset whose amount fields spell NaN and infinity. -/
def specialAmountData : List (List String) :=
  [["id", "date", "amount"], ["1", "2023-02-01", "NaN"], ["2", "2023-02-02", "Inf"]]

/-- A dataset with a malformed date and a malformed amount in its first data row. -/
def malformedData : List (List String) :=
  [["id", "date", "amount"], ["1", "2023-02-30", "12,5"], ["2", "2023-03-01", "-1.80"]]

/-- A template collaborator that renders a fixed greeting around the name. -/
def sampleRender (name : String) (_summary : List String) : Option String :=
  some ("<html><body>Hello " ++ name ++ "</body></html>")

/-- A mail envelope as `sendEmail` builds it. -/
def sampleMail : Mail := ⟨"storitests@gmail.com", ["ann@example.com"], "Summary from Stori", ""⟩

/-- The four bytes of the text `id,d`. -/
def sampleFile : List Byte := [105, 100, 44, 100]

/-- A list with a single credit and no debit. -/
def creditOnly : List Transaction := [⟨"1", "2023-02-01", F64.ofDecimal false 100 1⟩]

/-- A list with a single debit and no credit. -/
def debitOnly : List Transaction := [⟨"3", "2023-03-01", F64.ofDecimal true 180 2⟩]

/-- The dataset of `TestConvertTransactions`. -/
def testData : List (List String) :=
  [["id", "date", "amount", "id_account"], ["1", "2023-02-01", "123.45", "123456789"]]

/-! ## The aggregates -/

theorem totalBalanceLoop_eq (xs : List Transaction) (total : F64) :
    totalBalanceLoop xs total = (xs.map Transaction.Amount).foldl F64.add total := by
  induction xs generalizing total with
  | nil => rfl
  | cons t rest ih => simp [totalBalanceLoop, ih]

theorem averageDebitLoop_eq (xs : List Transaction) (counter : Nat) (average : F64) :
    averageDebitLoop xs counter average =
      (counter + (debits xs).length, (debits xs).foldl F64.add average) := by
  induction xs generalizing counter average with
  | nil => rfl
  | cons t rest ih =>
    by_cases h : F64.lt t.Amount F64.zero = true
    · simp [averageDebitLoop, debits, List.filter_cons, h, ih]
      omega
    · simp [averageDebitLoop, debits, List.filter_cons, h, ih]

theorem averageCreditLoop_eq (xs : List Transaction) (counter : Nat) (average : F64) :
    averageCreditLoop xs counter average =
      (counter + (credits xs).length, (credits xs).foldl F64.add average) := by
  induction xs generalizing counter average with
  | nil => rfl
  | cons t rest ih =>
    by_cases h : F64.lt F64.zero t.Amount = true
    · simp [averageCreditLoop, credits, List.filter_cons, h, ih]
      omega
    · simp [averageCreditLoop, credits, List.filter_cons, h, ih]

theorem calculateAverageDebit_eq (xs : List Transaction) :
    calculateAverageDebit xs =
      (F64.div (F64.sum (debits xs)) (F64.ofNat (debits xs).length), none) := by
  simp [calculateAverageDebit, averageDebitLoop_eq, F64.sum]

theorem calculateAverageCredit_eq (xs : List Transaction) :
    calculateAverageCredit xs =
      (F64.div (F64.sum (credits xs)) (F64.ofNat (credits xs).length), none) := by
  simp [calculateAverageCredit, averageCreditLoop_eq, F64.sum]

theorem getSummary_eq (range : MapRange) (xs : List Transaction) :
    getSummary range xs =
      (("Total balance is: " ++ F64.format2 (calculateTotalBalance xs).1) ::
        ((range.visit (calculateTransactionsPerMonth xs).1).map monthLine ++
          ["Average debit amount: " ++ F64.format2 (calculateAverageDebit xs).1,
           "Average credit amount: " ++ F64.format2 (calculateAverageCredit xs).1]), none) := by
  simp [getSummary, calculateTotalBalance, calculateTransactionsPerMonth, calculateAverageDebit,
    calculateAverageCredit]

theorem lt_zero_of_isZero (a : F64) (h : a.isZero = true) :
    F64.lt a F64.zero = false ∧ F64.lt F64.zero a = false := by
  cases a with
  | nan => simp [F64.isZero] at h
  | inf neg => simp [F64.isZero] at h
  | fin neg m e =>
    cases m with
    | zero => cases neg <;> simp [F64.lt, F64.zero, F64.signedAt]
    | succ k => simp [F64.isZero] at h

theorem debits_filter_nonzero (xs : List Transaction) :
    debits (xs.filter (fun t => !t.Amount.isZero)) = debits xs := by
  induction xs with
  | nil => rfl
  | cons t rest ih =>
    by_cases h : t.Amount.isZero = true
    · have h0 := (lt_zero_of_isZero t.Amount h).1
      simp only [debits, List.map_cons, List.filter_cons, h, h0] at ih ⊢
      simpa using ih
    · simp only [Bool.not_eq_true] at h
      simp only [debits, List.map_cons, List.filter_cons, h] at ih ⊢
      simp [List.filter_cons, ih]

theorem credits_filter_nonzero (xs : List Transaction) :
    credits (xs.filter (fun t => !t.Amount.isZero)) = credits xs := by
  induction xs with
  | nil => rfl
  | cons t rest ih =>
    by_cases h : t.Amount.isZero = true
    · have h0 := (lt_zero_of_isZero t.Amount h).2
      simp only [credits, List.map_cons, List.filter_cons, h, h0] at ih ⊢
      simpa using ih
    · simp only [Bool.not_eq_true] at h
      simp only [credits, List.map_cons, List.filter_cons, h] at ih ⊢
      simp [List.filter_cons, ih]

/-- C2. `calculateTotalBalance` returns a nil error and the `float64` sum of the
`Amount` fields, accumulated from `0` in list order: `0` for the empty list, and
for a list extended by one transaction the previous total plus its amount. -/
theorem C2_calculateTotalBalance_sum (xs : List Transaction) (t : Transaction) :
    calculateTotalBalance xs = (F64.sum (xs.map Transaction.Amount), none) ∧
    calculateTotalBalance [] = (F64.zero, none) ∧
    (calculateTotalBalance (xs ++ [t])).1 = F64.add (calculateTotalBalance xs).1 t.Amount := by
  refine ⟨?_, rfl, ?_⟩
  · simp [calculateTotalBalance, totalBalanceLoop_eq, F64.sum]
  · simp [calculateTotalBalance, totalBalanceLoop_eq]

/-- C4. `calculateAverageDebit` returns the `float64` sum of exactly the amounts
`< 0` divided by their number, and `calculateAverageCredit` the sum of exactly
the amounts `> 0` divided by their number; with at least one such amount the
divisor is positive, and transactions with a zero amount change neither
average. -/
theorem C4_average_is_mean (xs : List Transaction) :
    calculateAverageDebit xs =
      (F64.div (F64.sum (debits xs)) (F64.ofNat (debits xs).length), none) ∧
    calculateAverageCredit xs =
      (F64.div (F64.sum (credits xs)) (F64.ofNat (credits xs).length), none) ∧
    ((∃ t ∈ xs, F64.lt t.Amount F64.zero = true) → 0 < (debits xs).length) ∧
    ((∃ t ∈ xs, F64.lt F64.zero t.Amount = true) → 0 < (credits xs).length) ∧
    calculateAverageDebit (xs.filter (fun t => !t.Amount.isZero)) = calculateAverageDebit xs ∧
    calculateAverageCredit (xs.filter (fun t => !t.Amount.isZero)) =
      calculateAverageCredit xs := by
  refine ⟨calculateAverageDebit_eq xs, calculateAverageCredit_eq xs, ?_, ?_, ?_, ?_⟩
  · rintro ⟨t, ht, hlt⟩
    apply List.length_pos_of_mem (a := t.Amount)
    simp only [debits, List.mem_filter, List.mem_map]
    exact ⟨⟨t, ht, rfl⟩, hlt⟩
  · rintro ⟨t, ht, hlt⟩
    apply List.length_pos_of_mem (a := t.Amount)
    simp only [credits, List.mem_filter, List.mem_map]
    exact ⟨⟨t, ht, rfl⟩, hlt⟩
  · rw [calculateAverageDebit_eq, calculateAverageDebit_eq, debits_filter_nonzero]
  · rw [calculateAverageCredit_eq, calculateAverageCredit_eq, credits_filter_nonzero]

/-! ## Averages over an empty subset, `getSummary` -/

theorem debits_eq_nil (xs : List Transaction)
    (h : ∀ t ∈ xs, F64.lt t.Amount F64.zero = false) : debits xs = [] := by
  simp only [debits, List.filter_eq_nil_iff, List.mem_map]
  rintro a ⟨t, ht, rfl⟩
  simp [h t ht]

theorem credits_eq_nil (xs : List Transaction)
    (h : ∀ t ∈ xs, F64.lt F64.zero t.Amount = false) : credits xs = [] := by
  simp only [credits, List.filter_eq_nil_iff, List.mem_map]
  rintro a ⟨t, ht, rfl⟩
  simp [h t ht]

theorem div_zero_zero : F64.div (F64.sum []) (F64.ofNat 0) = F64.nan := by decide

/-- C1 (as stated, refuted). A list with one credit and no debit: the average
debit is NaN with a nil error, and `getSummary` returns its lines with a nil
error; symmetrically for a list with one debit and no credit. -/
theorem C1_counterexample_no_failure :
    (∀ t ∈ creditOnly, F64.lt t.Amount F64.zero = false) ∧
    calculateAverageDebit creditOnly = (F64.nan, none) ∧
    getSummary MapRange.insertionOrder creditOnly =
      (["Total balance is: 10.00", "Number of transactions in February: 1\n",
        "Average debit amount: NaN", "Average credit amount: 10.00"], none) ∧
    (∀ t ∈ debitOnly, F64.lt F64.zero t.Amount = false) ∧
    calculateAverageCredit debitOnly = (F64.nan, none) ∧
    getSummary MapRange.insertionOrder debitOnly =
      (["Total balance is: -1.80", "Number of transactions in March: 1\n",
        "Average debit amount: -1.80", "Average credit amount: NaN"], none) := by
  decide

/-- C1 (amended). For a list with no negative amount `calculateAverageDebit`
returns NaN with a nil error, and `getSummary` returns a nil error and the line
`Average debit amount: NaN`; symmetrically `calculateAverageCredit` and the line
`Average credit amount: NaN` for a list with no positive amount. -/
theorem C1_average_of_nothing_is_NaN (range : MapRange) (xs : List Transaction) :
    ((∀ t ∈ xs, F64.lt t.Amount F64.zero = false) →
      calculateAverageDebit xs = (F64.nan, none) ∧ (getSummary range xs).2 = none ∧
      "Average debit amount: NaN" ∈ (getSummary range xs).1) ∧
    ((∀ t ∈ xs, F64.lt F64.zero t.Amount = false) →
      calculateAverageCredit xs = (F64.nan, none) ∧ (getSummary range xs).2 = none ∧
      "Average credit amount: NaN" ∈ (getSummary range xs).1) := by
  constructor
  · intro h
    have hd : calculateAverageDebit xs = (F64.nan, none) := by
      rw [calculateAverageDebit_eq, debits_eq_nil xs h]
      exact congrArg (fun v => (v, (none : Option GoError))) div_zero_zero
    refine ⟨hd, by rw [getSummary_eq], ?_⟩
    rw [getSummary_eq, hd]
    simp [F64.format2]
  · intro h
    have hc : calculateAverageCredit xs = (F64.nan, none) := by
      rw [calculateAverageCredit_eq, credits_eq_nil xs h]
      exact congrArg (fun v => (v, (none : Option GoError))) div_zero_zero
    refine ⟨hc, by rw [getSummary_eq], ?_⟩
    rw [getSummary_eq, hc]
    simp [F64.format2]

theorem testMonths : (calculateTransactionsPerMonth testTransactions).1 =
    [("February", 2), ("March", 1)] := by decide

/-- C7 (code defect). On the transactions of `Test_getSummary` no iteration
order of the month map makes `getSummary` return the lines the test expects:
every month line ends in a line feed. In insertion order the result is the
expected one except for that line feed after each count. -/
theorem C7_getSummary_contradicts_test :
    (∀ range : MapRange, (getSummary range testTransactions).1 ≠ testWant) ∧
    getSummary MapRange.insertionOrder testTransactions =
      (["Total balance is: 20.65", "Number of transactions in February: 2\n",
        "Number of transactions in March: 1\n", "Average debit amount: -1.80",
        "Average credit amount: 11.22"], none) := by
  refine ⟨?_, by decide⟩
  intro range h
  rw [getSummary_eq, testMonths] at h
  have hp := range.perm [("February", 2), ("March", 1)]
  have hlen := hp.length_eq
  match hv : range.visit [("February", 2), ("March", 1)], hlen with
  | [x, y], _ =>
    rw [hv] at h hp
    have hx : x ∈ [(("February", 2) : String × Nat), ("March", 1)] :=
      hp.subset (List.mem_cons_self x [y])
    simp only [testWant, List.map_cons, List.map_nil, List.cons_append, List.cons.injEq] at h
    have h1 := h.2.1
    simp only [List.mem_cons, List.mem_singleton, List.not_mem_nil, or_false] at hx
    rcases hx with rfl | rfl
    · exact absurd h1 (by decide)
    · exact absurd h1 (by decide)

/-- C9 (code defect). On the transactions of `Test_getSummary` two iterations of
the month map give two different sequences of lines: February before March in
one, March before February in the other. -/
theorem C9_month_order_follows_iteration :
    (getSummary MapRange.insertionOrder testTransactions).1 =
      ["Total balance is: 20.65", "Number of transactions in February: 2\n",
       "Number of transactions in March: 1\n", "Average debit amount: -1.80",
       "Average credit amount: 11.22"] ∧
    (getSummary MapRange.reverseOrder testTransactions).1 =
      ["Total balance is: 20.65", "Number of transactions in March: 1\n",
       "Number of transactions in February: 2\n", "Average debit amount: -1.80",
       "Average credit amount: 11.22"] ∧
    getSummary MapRange.insertionOrder testTransactions ≠
      getSummary MapRange.reverseOrder testTransactions := by
  decide

/-! ## `time.Parse` and `Time.Format` against the calendar -/

theorem getYear_some {l r : List Char} {y : Nat} (h : getYear l = some (y, r)) :
    ∃ a b c d, l = a :: b :: c :: d :: r ∧ a.isDigit = true ∧ b.isDigit = true ∧
      c.isDigit = true ∧ d.isDigit = true ∧
      y = digitVal a * 1000 + digitVal b * 100 + digitVal c * 10 + digitVal d := by
  unfold getYear at h
  split at h
  · rename_i a b c d rest
    split at h
    · rename_i hc
      simp only [Bool.and_eq_true] at hc
      simp only [Option.some.injEq, Prod.mk.injEq] at h
      exact ⟨a, b, c, d, by rw [h.2], hc.1.1.1, hc.1.1.2, hc.1.2, hc.2, h.1.symm⟩
    · simp at h
  · simp at h

theorem getnum2_some {l r : List Char} {n : Nat} (h : getnum2 l = some (n, r)) :
    ∃ a b, l = a :: b :: r ∧ a.isDigit = true ∧ b.isDigit = true ∧
      n = digitVal a * 10 + digitVal b := by
  unfold getnum2 at h
  split at h
  · rename_i a b rest
    split at h
    · rename_i hc
      simp only [Bool.and_eq_true] at hc
      simp only [Option.some.injEq, Prod.mk.injEq] at h
      exact ⟨a, b, by rw [h.2], hc.1, hc.2, h.1.symm⟩
    · simp at h
  · simp at h

theorem skipDash_some {l r : List Char} (h : skipDash l = some r) : l = '-' :: r := by
  unfold skipDash at h
  split at h
  · simp only [Option.some.injEq] at h
    rw [h]
  · simp at h

theorem isoDate_time_Parse (s : String) (t : Time) (h : isoDate s = some t) :
    time_Parse s = (t, none) := by
  unfold isoDate at h
  split at h
  · rename_i y1 y2 y3 y4 m1 m2 d1 d2 heq
    split at h
    · rename_i hc
      simp only [Option.some.injEq] at h
      subst h
      obtain ⟨h1, h2, h3, h4, h5, h6, h7, h8, h9, h10, h11, h12⟩ := hc
      have hm : ¬ (digitVal m1 * 10 + digitVal m2 = 0 ∨ 12 < digitVal m1 * 10 + digitVal m2) := by
        omega
      have hd : ¬ (digitVal d1 * 10 + digitVal d2 < 1 ∨
          digitVal d1 * 10 + digitVal d2 > daysIn (digitVal m1 * 10 + digitVal m2)
            (digitVal y1 * 1000 + digitVal y2 * 100 + digitVal y3 * 10 + digitVal y4)) := by
        omega
      simp only [time_Parse, heq, getYear, skipDash, getnum2, h1, h2, h3, h4, h5, h6, h7, h8,
        Bool.and_self, if_true, hm, hd, if_false, ne_eq, not_true_eq_false]
    · simp at h
  · simp at h

theorem time_Parse_ok (s : String) (h : (time_Parse s).2 = none) :
    isoDate s = some (time_Parse s).1 := by
  have h0 := h
  unfold time_Parse at h0
  split at h0
  · simp at h0
  · rename_i year v1 e1
    split at h0
    · simp at h0
    · rename_i v2 e2
      split at h0
      · simp at h0
      · rename_i month v3 e3
        split at h0
        · simp at h0
        · rename_i hm
          split at h0
          · simp at h0
          · rename_i v4 e4
            split at h0
            · simp at h0
            · rename_i day v5 e5
              split at h0
              · simp at h0
              · rename_i hv5
                split at h0
                · simp at h0
                · rename_i hd
                  obtain ⟨a, b, c, d, hl, ha, hb, hc, hdd, hy⟩ := getYear_some e1
                  obtain ⟨m1, m2, hl3, hm1, hm2, hmv⟩ := getnum2_some e3
                  obtain ⟨d1, d2, hl5, hd1, hd2, hdv⟩ := getnum2_some e5
                  have hl2 := skipDash_some e2
                  have hl4 := skipDash_some e4
                  simp only [ne_eq, Decidable.not_not] at hv5
                  subst hv5 hl5 hl4 hl3 hl2
                  have hs : s.toList = [a, b, c, d, '-', m1, m2, '-', d1, d2] := hl
                  have : isoDate s = some ⟨year, month, day⟩ := by
                    simp only [isoDate, hs]
                    subst hy hmv hdv
                    rw [if_pos]
                    refine ⟨ha, hb, hc, hdd, hm1, hm2, hd1, hd2, ?_, ?_, ?_, ?_⟩ <;> omega
                  rw [this, isoDate_time_Parse s _ this]

theorem time_Parse_ok_or_zero (s : String) :
    (time_Parse s).2 = none ∨ (time_Parse s).1 = Time.zero := by
   unfold time_Parse
   repeat' split
   all_goals first | (left; rfl) | (right; rfl)

theorem time_Parse_err (s : String) (h : isoDate s = none) :
    (time_Parse s).1 = Time.zero ∧ (time_Parse s).2 ≠ none := by
  have hne : (time_Parse s).2 ≠ none := by
    intro hn
    rw [time_Parse_ok s hn] at h
    simp at h
  exact ⟨(time_Parse_ok_or_zero s).resolve_left hne, hne⟩

theorem isDigit_bounds (c : Char) (h : c.isDigit = true) : 48 ≤ c.toNat ∧ c.toNat ≤ 57 := by
  simp only [Char.isDigit, Bool.and_eq_true, decide_eq_true_eq] at h
  obtain ⟨h1, h2⟩ := h
  have h1' : (48 : UInt32).toNat ≤ c.val.toNat := h1
  have h2' : c.val.toNat ≤ (57 : UInt32).toNat := h2
  exact ⟨h1', h2'⟩

theorem digitVal_lt (c : Char) (h : c.isDigit = true) : digitVal c < 10 := by
  have := isDigit_bounds c h
  unfold digitVal
  omega

theorem digitChar_digitVal (c : Char) (h : c.isDigit = true) : digitChar (digitVal c) = c := by
  have := isDigit_bounds c h
  unfold digitChar digitVal
  rw [show 48 + (c.toNat - 48) = c.toNat by omega, Char.ofNat_toNat]

theorem isoDate_shape (s : String) (t : Time) (h : isoDate s = some t) :
    isIsoShape s = true ∧ 1 ≤ t.month ∧ t.month ≤ 12 := by
  unfold isoDate at h
  split at h
  · rename_i y1 y2 y3 y4 m1 m2 d1 d2 heq
    split at h
    · rename_i hc
      simp only [Option.some.injEq] at h
      subst h
      obtain ⟨h1, h2, h3, h4, h5, h6, h7, h8, h9, h10, h11, h12⟩ := hc
      refine ⟨?_, h9, h10⟩
      unfold isIsoShape
      rw [heq]
      simp [h1, h2, h3, h4, h5, h6, h7, h8]
    · simp at h
  · simp at h

theorem isoDate_time_Format (s : String) (t : Time) (h : isoDate s = some t) :
    time_Format t = s := by
  unfold isoDate at h
  split at h
  · rename_i y1 y2 y3 y4 m1 m2 d1 d2 heq
    split at h
    · rename_i hc
      simp only [Option.some.injEq] at h
      subst h
      obtain ⟨h1, h2, h3, h4, h5, h6, h7, h8, h9, h10, h11, h12⟩ := hc
      have b1 := digitVal_lt _ h1
      have b2 := digitVal_lt _ h2
      have b3 := digitVal_lt _ h3
      have b4 := digitVal_lt _ h4
      have b5 := digitVal_lt _ h5
      have b6 := digitVal_lt _ h6
      have b7 := digitVal_lt _ h7
      have b8 := digitVal_lt _ h8
      have hdl : daysIn (digitVal m1 * 10 + digitVal m2)
          (digitVal y1 * 1000 + digitVal y2 * 100 + digitVal y3 * 10 + digitVal y4) ≤ 31 := by
        unfold daysIn
        split
        · split <;> omega
        · split <;> omega
      apply String.ext
      rw [show s.data = s.toList from rfl, heq]
      have hy : digitVal y1 * 1000 + digitVal y2 * 100 + digitVal y3 * 10 + digitVal y4 < 10000 := by
        omega
      have hm : digitVal m1 * 10 + digitVal m2 < 100 := by omega
      have hd : digitVal d1 * 10 + digitVal d2 < 100 := by omega
      simp only [time_Format, appendInt, String.data_append, hy, hm, hd, and_self, and_true,
        true_and, if_true, show ¬ ((4 : Nat) = 2) by decide, false_and, if_false]
      rw [show (digitVal y1 * 1000 + digitVal y2 * 100 + digitVal y3 * 10 + digitVal y4) / 100 / 10
            = digitVal y1 by omega,
          show (digitVal y1 * 1000 + digitVal y2 * 100 + digitVal y3 * 10 + digitVal y4) / 100 % 10
            = digitVal y2 by omega,
          show (digitVal y1 * 1000 + digitVal y2 * 100 + digitVal y3 * 10 + digitVal y4) % 100 / 10
            = digitVal y3 by omega,
          show (digitVal y1 * 1000 + digitVal y2 * 100 + digitVal y3 * 10 + digitVal y4) % 100 % 10
            = digitVal y4 by omega,
          show (digitVal m1 * 10 + digitVal m2) / 10 = digitVal m1 by omega,
          show (digitVal m1 * 10 + digitVal m2) % 10 = digitVal m2 by omega,
          show (digitVal d1 * 10 + digitVal d2) / 10 = digitVal d1 by omega,
          show (digitVal d1 * 10 + digitVal d2) % 10 = digitVal d2 by omega]
      simp only [digitChar_digitVal, h1, h2, h3, h4, h5, h6, h7, h8]
      rfl
    · simp at h
  · simp at h

/-! ## The month map -/

theorem get_cons (k0 : String) (v : Nat) (rest : GoMap) (k : String) :
    GoMap.get ((k0, v) :: rest) k = if k = k0 then v else GoMap.get rest k := by
  by_cases h : k = k0
  · have hb : (k == k0) = true := by simpa using h
    simp [GoMap.get, List.lookup, hb, h]
  · have hb : (k == k0) = false := by simpa using h
    simp [GoMap.get, List.lookup, hb, h]

theorem get_incr (m : GoMap) (k k' : String) :
    (m.incr k).get k' = if k' = k then m.get k' + 1 else m.get k' := by
  induction m with
  | nil =>
    simp only [GoMap.incr, get_cons]
    simp [GoMap.get]
  | cons kv rest ih =>
    obtain ⟨k0, v⟩ := kv
    by_cases h0 : k0 = k
    · subst h0
      simp only [GoMap.incr, if_true, get_cons]
      split <;> rfl
    · simp only [GoMap.incr, h0, if_false, get_cons, ih]
      by_cases h1 : k' = k0
      · have h2 : ¬ k' = k := fun e => h0 (h1.symm.trans e)
        simp [h1, h2, h0]
      · simp [h1]

theorem keys_incr (m : GoMap) (k : String) (x : String) :
    x ∈ (m.incr k).map Prod.fst ↔ x = k ∨ x ∈ m.map Prod.fst := by
  induction m with
  | nil => simp [GoMap.incr]
  | cons kv rest ih =>
    obtain ⟨k0, v⟩ := kv
    by_cases h0 : k0 = k
    · subst h0
      simp [GoMap.incr]
    · simp only [GoMap.incr, h0, if_false, List.map_cons, List.mem_cons, ih]
      tauto

theorem nodup_incr (m : GoMap) (k : String) (h : (m.map Prod.fst).Nodup) :
    ((m.incr k).map Prod.fst).Nodup := by
  induction m with
  | nil => simp [GoMap.incr]
  | cons kv rest ih =>
    obtain ⟨k0, v⟩ := kv
    simp only [List.map_cons, List.nodup_cons] at h
    by_cases h0 : k0 = k
    · subst h0
      simpa [GoMap.incr] using h
    · simp only [GoMap.incr, h0, if_false, List.map_cons, List.nodup_cons]
      refine ⟨?_, ih h.2⟩
      rw [keys_incr]
      intro hx
      rcases hx with hx | hx
      · exact h0 hx
      · exact h.1 hx

theorem pos_incr (m : GoMap) (k : String) (h : ∀ kv ∈ m, 0 < kv.2) :
    ∀ kv ∈ m.incr k, 0 < kv.2 := by
  induction m with
  | nil => simp [GoMap.incr]
  | cons kv rest ih =>
    obtain ⟨k0, v⟩ := kv
    by_cases h0 : k0 = k
    · subst h0
      intro kv hkv
      simp only [GoMap.incr, if_true, List.mem_cons] at hkv
      rcases hkv with rfl | hkv
      · simp
      · exact h kv (List.mem_cons_of_mem _ hkv)
    · intro kv hkv
      simp only [GoMap.incr, h0, if_false, List.mem_cons] at hkv
      rcases hkv with rfl | hkv
      · exact h _ (List.mem_cons_self _ _)
      · exact ih (fun kv hk => h kv (List.mem_cons_of_mem _ hk)) kv hkv

theorem loop_get (xs : List Transaction) (m : GoMap) (M : String) :
    (transactionsPerMonthLoop xs m).get M = m.get M + xs.countP (fun t => monthKey t = M) := by
  induction xs generalizing m with
  | nil => simp [transactionsPerMonthLoop]
  | cons t rest ih =>
    simp only [transactionsPerMonthLoop, ih, get_incr, List.countP_cons]
    by_cases h : M = monthKey t
    · have h' : M = monthString (time_Parse t.Date).1.month := h
      simp [h', monthKey]
      omega
    · have h' : ¬ M = monthString (time_Parse t.Date).1.month := h
      have h2 : ¬ monthKey t = M := fun e => h e.symm
      simp [h', h2]

theorem loop_keys (xs : List Transaction) (m : GoMap) (x : String) :
    x ∈ (transactionsPerMonthLoop xs m).map Prod.fst ↔
      x ∈ m.map Prod.fst ∨ ∃ t ∈ xs, monthKey t = x := by
  induction xs generalizing m with
  | nil => simp [transactionsPerMonthLoop]
  | cons t rest ih =>
    simp only [transactionsPerMonthLoop, ih, keys_incr, List.mem_cons, exists_eq_or_imp, monthKey]
    constructor
    · rintro ((h | h) | h)
      · exact Or.inr (Or.inl h.symm)
      · exact Or.inl h
      · exact Or.inr (Or.inr h)
    · rintro (h | h | h)
      · exact Or.inl (Or.inr h)
      · exact Or.inl (Or.inl h.symm)
      · exact Or.inr h

theorem loop_nodup (xs : List Transaction) (m : GoMap) (h : (m.map Prod.fst).Nodup) :
    ((transactionsPerMonthLoop xs m).map Prod.fst).Nodup := by
  induction xs generalizing m with
  | nil => simpa [transactionsPerMonthLoop] using h
  | cons t rest ih => exact ih _ (nodup_incr m _ h)

theorem loop_pos (xs : List Transaction) (m : GoMap) (h : ∀ kv ∈ m, 0 < kv.2) :
    ∀ kv ∈ transactionsPerMonthLoop xs m, 0 < kv.2 := by
  induction xs generalizing m with
  | nil => simpa [transactionsPerMonthLoop] using h
  | cons t rest ih => exact ih _ (pos_incr m _ h)

theorem monthKey_eq (t : Transaction) : monthKey t = (monthOf t).getD "January" := by
  unfold monthKey monthOf
  cases h : isoDate t.Date with
  | none => rw [(time_Parse_err t.Date h).1]; rfl
  | some d => rw [isoDate_time_Parse t.Date d h]; rfl

theorem monthKey_mem (t : Transaction) : monthKey t ∈ monthNames := by
  rw [monthKey_eq]
  unfold monthOf
  cases h : isoDate t.Date with
  | none => decide
  | some d =>
    obtain ⟨_, h1, h2⟩ := isoDate_shape t.Date d h
    simp only [Option.map_some', Option.getD_some]
    generalize d.month = n at h1 h2
    interval_cases n <;> decide

theorem countP_monthKey (xs : List Transaction) (M : String) :
    xs.countP (fun t => monthKey t = M) =
      xs.countP (fun t => monthOf t = some M) +
        (if M = "January" then xs.countP (fun t => monthOf t = none) else 0) := by
  induction xs with
  | nil => simp
  | cons t rest ih =>
    have hk := monthKey_eq t
    simp only [List.countP_cons, ih]
    cases h : monthOf t with
    | none =>
      rw [h] at hk
      simp only [Option.getD_none] at hk
      by_cases hM : M = "January"
      · subst hM
        simp [hk]
        omega
      · have hM' : ¬ "January" = M := fun e => hM e.symm
        simp [hk, hM, hM']
    | some k =>
      rw [h] at hk
      simp only [Option.getD_some] at hk
      by_cases hkM : k = M
      · subst hkM
        simp [hk]
        omega
      · simp [hk, hkM]

/-- C3 (as stated, refuted). A transaction with an empty `Date` is dated in no
month, yet `calculateTransactionsPerMonth` returns the bucket `January` with
count 1 for it. -/
theorem C3_counterexample_undated :
    undated.countP (fun t => monthOf t = some "January") = 0 ∧
    calculateTransactionsPerMonth undated = ([("January", 1)], none) ∧
    (calculateTransactionsPerMonth undated).1.get "January" = 1 := by
  decide

/-- C3 (amended). `calculateTransactionsPerMonth` returns a nil error and a map
with distinct keys, all of them month names, in which the count under a month
name `M` is the number of transactions whose `Date` is a `YYYY-MM-DD` date in
month `M` of any year, plus, for `January`, the number of transactions whose
`Date` is not such a date; every stored count is positive. Two transactions of
February 2022 and February 2023 give the single bucket `February` with count 2,
and the empty list gives the empty map. -/
theorem C3_counts_by_month_name (xs : List Transaction) (M : String) :
    (calculateTransactionsPerMonth xs).2 = none ∧
    (calculateTransactionsPerMonth xs).1.get M =
      xs.countP (fun t => monthOf t = some M) +
        (if M = "January" then xs.countP (fun t => monthOf t = none) else 0) ∧
    ((calculateTransactionsPerMonth xs).1.map Prod.fst).Nodup ∧
    (∀ kv ∈ (calculateTransactionsPerMonth xs).1, kv.1 ∈ monthNames ∧ 0 < kv.2) ∧
    calculateTransactionsPerMonth twoFebruaries = ([("February", 2)], none) ∧
    calculateTransactionsPerMonth [] = ([], none) := by
  refine ⟨rfl, ?_, ?_, ?_, by decide, rfl⟩
  · simp only [calculateTransactionsPerMonth, loop_get, countP_monthKey]
    simp [GoMap.get]
  · exact loop_nodup xs [] (by simp)
  · intro kv hkv
    refine ⟨?_, loop_pos xs [] (by simp) kv hkv⟩
    have hk : kv.1 ∈ (transactionsPerMonthLoop xs []).map Prod.fst :=
      List.mem_map_of_mem Prod.fst hkv
    rw [loop_keys] at hk
    rcases hk with hk | ⟨t, _, ht⟩
    · simp at hk
    · rw [← ht]
      exact monthKey_mem t

/-! ## `convertTransactions` against the positional mapping -/

theorem convertFields_ge3 (fields : List String) (j : Nat) (hj : 3 ≤ j) (r : Transaction) :
    convertFields j fields r = r := by
  induction fields generalizing j r with
  | nil => rfl
  | cons f rest ih =>
    have hs : setField r j f = r := by
      unfold setField
      split <;> first | omega | rfl
    rw [convertFields, hs, ih (j + 1) (by omega)]

theorem convertFields_zero (line : List String) :
    convertFields 0 line Transaction.zero = recordOfRow line := by
  rcases line with _ | ⟨a, _ | ⟨b, _ | ⟨c, rest⟩⟩⟩
  · rfl
  · rfl
  · rfl
  · simp only [convertFields]
    rw [convertFields_ge3 rest 3 (le_refl 3)]
    simp [setField, recordOfRow]

theorem convertLines_eq (rows : List (List String)) (i : Nat) (acc : List Transaction) :
    convertLines i rows acc =
      acc ++ (if i > 0 then rows.map recordOfRow else (rows.drop 1).map recordOfRow) := by
  induction rows generalizing i acc with
  | nil => simp [convertLines]
  | cons line rest ih =>
    by_cases hi : i > 0
    · simp [convertLines, hi, ih, convertFields_zero]
    · simp [convertLines, hi, ih]

theorem convertTransactions_eq (data : List (List String)) (ulid : String) :
    convertTransactions data ulid = (data.drop 1).map recordOfRow := by
  simp [convertTransactions, convertLines_eq]

theorem convertTransactions_get (data : List (List String)) (ulid : String) (k : Nat) :
    (convertTransactions data ulid)[k]? = (data[k + 1]?).map recordOfRow := by
  rw [convertTransactions_eq]
  simp [List.getElem?_drop, Nat.add_comm]

theorem recordOfRow_take (row : List String) : recordOfRow (row.take 3) = recordOfRow row := by
  rcases row with _ | ⟨a, _ | ⟨b, _ | ⟨c, rest⟩⟩⟩ <;> simp [recordOfRow]

theorem ParseFloat_syntax (f : String) (h : (strconv_ParseFloat f).2 = some GoError.ErrSyntax) :
    (strconv_ParseFloat f).1 = F64.zero := by
  unfold strconv_ParseFloat at h ⊢
  cases hs : special f.toList with
  | some vr =>
    obtain ⟨v, rest⟩ := vr
    simp only [hs] at h ⊢
    by_cases hr : rest ≠ []
    · simp [hr]
    · simp [hr] at h
  | none =>
    simp only [hs] at h ⊢
    cases hp : readFloat f.toList with
    | none => simp
    | some p =>
      simp only [hp] at h ⊢
      by_cases hr : p.rest ≠ []
      · simp [hr]
      · simp only [hr, if_false] at h ⊢
        cases hv : floatValue p <;> simp [hv] at h

theorem recordOfRow_date (row : List String) (f : String) (h : row[1]? = some f) :
    (isoDate f = none → (recordOfRow row).Date = "0001-01-01") ∧
    (isoDate f ≠ none → (recordOfRow row).Date = f) ∧
    isIsoShape (recordOfRow row).Date = true := by
  have hd : (recordOfRow row).Date = time_Format (time_Parse f).1 := by
    simp [recordOfRow, h]
  rw [hd]
  cases hi : isoDate f with
  | none =>
    rw [(time_Parse_err f hi).1]
    exact ⟨fun _ => by decide, fun hn => absurd rfl hn, by decide⟩
  | some d =>
    rw [isoDate_time_Parse f d hi, isoDate_time_Format f d hi]
    exact ⟨fun hn => by simp at hn, fun _ => rfl, (isoDate_shape f d hi).1⟩

theorem recordOfRow_amount (row : List String) (f : String) (h : row[2]? = some f) :
    (recordOfRow row).Amount = (strconv_ParseFloat f).1 := by
  simp [recordOfRow, h]

theorem recordOfRow_short (row : List String) (h : row.length < 2) :
    (recordOfRow row).Date = "" := by
  rcases row with _ | ⟨a, _ | ⟨b, rest⟩⟩
  · rfl
  · rfl
  · simp only [List.length_cons] at h
    omega

/-- C5. `convertTransactions` drops row 0 and maps every other row, in order, to
the record built positionally from it: the result has `len(data) - 1` records,
the `k`-th one built from row `k + 1`; columns beyond index 2 and the `ulid`
argument have no effect; a header-only dataset gives the empty sequence; the
dataset of `TestConvertTransactions` gives `{"1", "2023-02-01", 123.45}`. -/
theorem C5_convertTransactions_positional (data : List (List String)) (ulid ulid2 : String) :
    convertTransactions data ulid = (data.drop 1).map recordOfRow ∧
    (convertTransactions data ulid).length = data.length - 1 ∧
    (∀ k, (convertTransactions data ulid)[k]? = (data[k + 1]?).map recordOfRow) ∧
    (∀ row, recordOfRow (row.take 3) = recordOfRow row) ∧
    convertTransactions data ulid2 = convertTransactions data ulid ∧
    (∀ header, convertTransactions [header] ulid = []) ∧
    convertTransactions testData "1234567890" =
      [⟨"1", "2023-02-01", F64.ofDecimal false 12345 2⟩] := by
  refine ⟨convertTransactions_eq data ulid, ?_, convertTransactions_get data ulid,
    recordOfRow_take, rfl, fun header => rfl, by decide⟩
  rw [convertTransactions_eq]
  simp

/-- C6 (as stated, refuted). The amount fields `NaN` and `Inf` are no decimal
numerals, yet the records built from them have the amounts NaN and `+Inf`, not
`0`. -/
theorem C6_counterexample_special_amounts :
    isDecimalNumeral "NaN" = false ∧ isDecimalNumeral "Inf" = false ∧
    convertTransactions specialAmountData "" =
      [⟨"1", "2023-02-01", F64.nan⟩, ⟨"2", "2023-02-02", F64.inf false⟩] ∧
    F64.nan ≠ F64.zero ∧ F64.inf false ≠ F64.zero := by
  decide

/-- C6 (amended). Every data row (row `k + 1`) gives the record at position `k`
of the output, whatever its fields: the id is column 0; a date field that is
not a `YYYY-MM-DD` date of the calendar gives the `Date` `0001-01-01` and one
that is gives itself; an amount field gives the value `strconv.ParseFloat`
returns for it, which is `0` whenever `ParseFloat` reports a syntax error. -/
theorem C6_malformed_fields_resolve_to_zero (data : List (List String)) (ulid : String)
    (k : Nat) (row : List String) (h : data[k + 1]? = some row) :
    ∃ r, (convertTransactions data ulid)[k]? = some r ∧
      r.Id = (row[0]?).getD "" ∧
      (∀ f, row[1]? = some f →
        (isoDate f = none → r.Date = "0001-01-01") ∧ (isoDate f ≠ none → r.Date = f)) ∧
      (∀ f, row[2]? = some f →
        r.Amount = (strconv_ParseFloat f).1 ∧
        ((strconv_ParseFloat f).2 = some GoError.ErrSyntax → r.Amount = F64.zero)) := by
  refine ⟨recordOfRow row, ?_, rfl, ?_, ?_⟩
  · rw [convertTransactions_get, h]
    rfl
  · intro f hf
    exact ⟨(recordOfRow_date row f hf).1, (recordOfRow_date row f hf).2.1⟩
  · intro f hf
    refine ⟨recordOfRow_amount row f hf, fun he => ?_⟩
    rw [recordOfRow_amount row f hf, ParseFloat_syntax f he]

/-- Witness of C6: the first data row of `malformedData`, whose date
`2023-02-30` and amount `12,5` are malformed. -/
theorem C6_malformed_fields_witness :
    isoDate "2023-02-30" = none ∧
    (strconv_ParseFloat "12,5").2 = some GoError.ErrSyntax ∧
    convertTransactions malformedData "" =
      [⟨"1", "0001-01-01", F64.zero⟩, ⟨"2", "2023-03-01", F64.ofDecimal true 180 2⟩] ∧
    ∃ r, (convertTransactions malformedData "")[0]? = some r ∧
      r.Id = ((["1", "2023-02-30", "12,5"] : List String)[0]?).getD "" ∧
      (∀ f, (["1", "2023-02-30", "12,5"] : List String)[1]? = some f →
        (isoDate f = none → r.Date = "0001-01-01") ∧ (isoDate f ≠ none → r.Date = f)) ∧
      (∀ f, (["1", "2023-02-30", "12,5"] : List String)[2]? = some f →
        r.Amount = (strconv_ParseFloat f).1 ∧
        ((strconv_ParseFloat f).2 = some GoError.ErrSyntax → r.Amount = F64.zero)) :=
  ⟨by decide, by decide, by decide,
    C6_malformed_fields_resolve_to_zero malformedData "" 0 ["1", "2023-02-30", "12,5"] rfl⟩

/-- C10 (as stated, refuted). The record built from a one-column row has the
empty `Date`, which is not of the form `YYYY-MM-DD`. -/
theorem C10_counterexample_one_column :
    convertTransactions oneColumnData "" = [⟨"1", "", F64.zero⟩] ∧
    isIsoShape "" = false := by
  decide

/-- C10 (amended). The record built from a data row with at least two columns
has a `Date` of the form `YYYY-MM-DD` (four digits, `-`, two digits, `-`, two
digits), whatever the content of the row; the record built from a row with
fewer than two columns has the empty `Date`. -/
theorem C10_date_is_iso_when_present (data : List (List String)) (ulid : String)
    (k : Nat) (row : List String) (h : data[k + 1]? = some row) :
    ∃ r, (convertTransactions data ulid)[k]? = some r ∧
      (2 ≤ row.length → isIsoShape r.Date = true) ∧
      (row.length < 2 → r.Date = "") := by
  refine ⟨recordOfRow row, ?_, ?_, recordOfRow_short row⟩
  · rw [convertTransactions_get, h]
    rfl
  · intro hlen
    have hf : row[1]? = some (row[1]) := List.getElem?_eq_getElem (by omega)
    exact (recordOfRow_date row _ hf).2.2

/-- Witness of C10: the data row of `TestConvertTransactions`. -/
theorem C10_date_is_iso_witness :
    ∃ r, (convertTransactions testData "1234567890")[0]? = some r ∧
      (2 ≤ (["1", "2023-02-01", "123.45", "123456789"] : List String).length →
        isIsoShape r.Date = true) ∧
      ((["1", "2023-02-01", "123.45", "123456789"] : List String).length < 2 → r.Date = "") :=
  C10_date_is_iso_when_present testData "1234567890" 0
    ["1", "2023-02-01", "123.45", "123456789"] rfl

/-! ## `base64.StdEncoding` and the message built by `buildMail` -/

theorem decodeChar_encodeChar : ∀ i, i < 64 → decodeChar (encodeChar i) = some i := by
  decide

theorem encodeChar_ne_pad : ∀ i, i < 64 → encodeChar i ≠ '=' := by
  decide

theorem encodeChar_ne_break : ∀ i, i < 64 → encodeChar i ≠ '\r' ∧ encodeChar i ≠ '\n' := by
  decide

theorem toByte_val (a : Byte) (n : Nat) (h : n % 256 = a.val) : toByte n = a := by
  apply Fin.ext
  simpa [toByte] using h

theorem encode_no_break (bs : List Byte) :
    ∀ c ∈ base64_Encode bs, c ≠ '\r' ∧ c ≠ '\n' := by
  induction bs using base64_Encode.induct with
  | case1 => simp [base64_Encode]
  | case2 a =>
    intro c hc
    simp only [base64_Encode, List.mem_cons, List.mem_singleton, List.not_mem_nil, or_false] at hc
    rcases hc with rfl | rfl | rfl | rfl
    · exact encodeChar_ne_break _ (Nat.mod_lt _ (by decide))
    · exact encodeChar_ne_break _ (Nat.mod_lt _ (by decide))
    · decide
    · decide
  | case3 a b =>
    intro c hc
    simp only [base64_Encode, List.mem_cons, List.mem_singleton, List.not_mem_nil, or_false] at hc
    rcases hc with rfl | rfl | rfl | rfl
    · exact encodeChar_ne_break _ (Nat.mod_lt _ (by decide))
    · exact encodeChar_ne_break _ (Nat.mod_lt _ (by decide))
    · exact encodeChar_ne_break _ (Nat.mod_lt _ (by decide))
    · decide
  | case4 a b c rest ih =>
    intro x hx
    simp only [base64_Encode, List.mem_cons] at hx
    rcases hx with rfl | rfl | rfl | rfl | hx
    · exact encodeChar_ne_break _ (Nat.mod_lt _ (by decide))
    · exact encodeChar_ne_break _ (Nat.mod_lt _ (by decide))
    · exact encodeChar_ne_break _ (Nat.mod_lt _ (by decide))
    · exact encodeChar_ne_break _ (Nat.mod_lt _ (by decide))
    · exact ih x hx

theorem decodeQuanta_encode (bs : List Byte) : decodeQuanta (base64_Encode bs) = some bs := by
  induction bs using base64_Encode.induct with
  | case1 => rfl
  | case2 a =>
    have ha := a.isLt
    simp only [base64_Encode, decodeQuanta,
      decodeChar_encodeChar _ (Nat.mod_lt _ (show 0 < 64 by decide))]
    congr 2
    apply toByte_val
    omega
  | case3 a b =>
    have ha := a.isLt
    have hb := b.isLt
    rw [base64_Encode]
    unfold decodeQuanta
    split
    · rename_i heq
      simp at heq
    · rename_i c0 c1 heq
      simp only [List.cons.injEq] at heq
      exact absurd heq.2.2.1 (encodeChar_ne_pad _ (Nat.mod_lt _ (by decide)))
    · rename_i c0 c1 c2 _ heq
      simp only [List.cons.injEq, and_true] at heq
      obtain ⟨h0, h1, h2⟩ := heq
      subst h0 h1 h2
      simp only [decodeChar_encodeChar _ (Nat.mod_lt _ (show 0 < 64 by decide))]
      congr 2
      · apply toByte_val
        omega
      · congr 1
        apply toByte_val
        omega
    · rename_i hn heq
      simp only [List.cons.injEq] at heq
      exact absurd (hn heq.2.2.2.1.symm heq.2.2.2.2.symm) id
    · rename_i hn _
      exact absurd rfl (hn _ _ _)
  | case4 a b c rest ih =>
    have ha := a.isLt
    have hb := b.isLt
    have hc := c.isLt
    rw [base64_Encode]
    unfold decodeQuanta
    split
    · rename_i heq
      simp at heq
    · rename_i c0 c1 heq
      simp only [List.cons.injEq] at heq
      exact absurd heq.2.2.1 (encodeChar_ne_pad _ (Nat.mod_lt _ (by decide)))
    · rename_i c0 c1 c2 _ heq
      simp only [List.cons.injEq] at heq
      exact absurd heq.2.2.2.1 (encodeChar_ne_pad _ (Nat.mod_lt _ (by decide)))
    · rename_i c0 c1 c2 c3 tail _ _ heq
      simp only [List.cons.injEq] at heq
      obtain ⟨h0, h1, h2, h3, h4⟩ := heq
      subst h0 h1 h2 h3 h4
      simp only [ih, decodeChar_encodeChar _ (Nat.mod_lt _ (show 0 < 64 by decide))]
      congr 2
      · apply toByte_val
        omega
      · congr 1
        · apply toByte_val
          omega
        · congr 1
          apply toByte_val
          omega
    · rename_i h1 h2 h3 h4
      exact absurd rfl (h4 _ _ _ _ _)

theorem base64_roundtrip (bs : List Byte) : base64_Decode (base64_Encode bs) = some bs := by
  unfold base64_Decode
  rw [List.filter_eq_self.mpr]
  · exact decodeQuanta_encode bs
  · intro c hc
    have := encode_no_break bs c hc
    simp [this.1, this.2]

theorem suffix_after_last (c : Char) (a b s t : List Char) (hs : c ∉ s) (ht : c ∉ t)
    (h : a ++ c :: s = b ++ c :: t) : s = t := by
  induction a generalizing b with
  | nil =>
    cases b with
    | nil => simpa using h
    | cons y b' =>
      simp only [List.nil_append, List.cons_append, List.cons.injEq] at h
      exact absurd (h.2 ▸ List.mem_append_right b' (List.mem_cons_self c t)) hs
  | cons x a' ih =>
    cases b with
    | nil =>
      simp only [List.nil_append, List.cons_append, List.cons.injEq] at h
      exact absurd (h.2 ▸ List.mem_append_right a' (List.mem_cons_self c s)) ht
    | cons y b' =>
      simp only [List.cons_append, List.cons.injEq] at h
      exact ih b' h.2

theorem part2Header_ends_in_break :
    part2Header.toList = part2Header.toList.dropLast ++ ['\n'] := by decide

theorem buildMail_some (render : String → List String → Option String)
    (name : String) (summary : List String) (mail : Mail) (fileByte : List Byte)
    (html : String) (h : render name summary = some html) :
    buildMail render name summary mail fileByte =
      some (mailHead mail ++ html ++ part2Header ++ String.mk (base64_Encode fileByte) ++
        terminator) := by
  simp [buildMail, h]

theorem segment_decodes (A B before seg : List Char) (fileByte : List Byte)
    (hl : A ++ B ++ part2Header.data ++ base64_Encode fileByte ++ terminator.data =
      before ++ part2Header.data ++ seg ++ terminator.data)
    (hseg : '\n' ∉ seg) : base64_Decode seg = some fileByte := by
  have hl2 := List.append_cancel_right hl
  have hH : part2Header.data = part2Header.data.dropLast ++ ['\n'] := part2Header_ends_in_break
  rw [hH] at hl2
  generalize part2Header.data.dropLast = H0 at hl2
  have hl3 : (A ++ B ++ H0) ++ '\n' :: base64_Encode fileByte = (before ++ H0) ++ '\n' :: seg := by
    simpa [List.append_assoc] using hl2
  have hE : '\n' ∉ base64_Encode fileByte := fun hc => (encode_no_break fileByte _ hc).2 rfl
  have hs := suffix_after_last '\n' (A ++ B ++ H0) (before ++ H0) (base64_Encode fileByte) seg
    hE hseg hl3
  rw [← hs]
  exact base64_roundtrip fileByte

/-- C8. When the template collaborator renders a body, `buildMail` returns the
message made of the head, the rendered body, the part-2 header block (the
boundary line `--my-boundary-779`, then `Content-Type: text/plain;
charset="utf-8"`, `Content-Transfer-Encoding: base64`, `Content-Disposition:
attachment; filename=transactions.csv`, `Content-ID: <transactions.csv>` and
the blank line after it, every line ended by CR LF), the base64 encoding of
`fileByte` and the closing terminator `\r\n--my-boundary-779--`; standard base64
decoding of that encoding gives back exactly `fileByte`; and however the end of
the message is read as that header block, a segment free of line feeds and the
terminator, the segment decodes to `fileByte`. -/
theorem C8_attachment_roundtrip (render : String → List String → Option String)
    (name : String) (summary : List String) (mail : Mail) (fileByte : List Byte)
    (html : String) (h : render name summary = some html) :
    buildMail render name summary mail fileByte =
      some (mailHead mail ++ html ++
        "\r\n--my-boundary-779\r\nContent-Type: text/plain; charset=\"utf-8\"\r\nContent-Transfer-Encoding: base64\r\nContent-Disposition: attachment; filename=transactions.csv\r\nContent-ID: <transactions.csv>\r\n\r\n" ++
        String.mk (base64_Encode fileByte) ++ "\r\n--my-boundary-779--") ∧
    part2Header =
      "\r\n--my-boundary-779\r\nContent-Type: text/plain; charset=\"utf-8\"\r\nContent-Transfer-Encoding: base64\r\nContent-Disposition: attachment; filename=transactions.csv\r\nContent-ID: <transactions.csv>\r\n\r\n" ∧
    terminator = "\r\n--my-boundary-779--" ∧
    base64_Decode (base64_Encode fileByte) = some fileByte ∧
    ∀ (msg : String) (before seg : List Char),
      buildMail render name summary mail fileByte = some msg →
      msg.toList = before ++
        ("\r\n--my-boundary-779\r\nContent-Type: text/plain; charset=\"utf-8\"\r\nContent-Transfer-Encoding: base64\r\nContent-Disposition: attachment; filename=transactions.csv\r\nContent-ID: <transactions.csv>\r\n\r\n" : String).toList ++
        seg ++ ("\r\n--my-boundary-779--" : String).toList →
      '\n' ∉ seg → base64_Decode seg = some fileByte := by
  have hb := buildMail_some render name summary mail fileByte html h
  have hP : part2Header =
      "\r\n--my-boundary-779\r\nContent-Type: text/plain; charset=\"utf-8\"\r\nContent-Transfer-Encoding: base64\r\nContent-Disposition: attachment; filename=transactions.csv\r\nContent-ID: <transactions.csv>\r\n\r\n" := by
    decide
  have hT : terminator = "\r\n--my-boundary-779--" := by decide
  refine ⟨?_, hP, hT, base64_roundtrip fileByte, ?_⟩
  · rw [← hP, ← hT]
    exact hb
  · intro msg before seg hm hl hseg
    rw [hb, Option.some.injEq] at hm
    subst hm
    rw [← hP, ← hT] at hl
    simp only [String.toList, String.data_append] at hl
    exact segment_decodes (mailHead mail).data html.data before seg fileByte hl hseg

/-- Witness of C8: a four-byte file for the recipient `Ann`; the whole message,
whose attachment segment is `aWQsZA==`. -/
theorem C8_attachment_roundtrip_witness :
    sampleRender "Ann" [] = some "<html><body>Hello Ann</body></html>" ∧
    buildMail sampleRender "Ann" [] sampleMail sampleFile =
      some ("From: storitests@gmail.com\r\nTo: ann@example.com\r\n" ++
        "Subject: Summary from Stori\r\nMIME-Version: 1.0\r\n" ++
        "Content-Type: multipart/mixed; boundary=my-boundary-779\n" ++
        "\r\n--my-boundary-779\r\n" ++
        "MIME-version: 1.0;\nContent-Type: text/html; charset=\"UTF-8\";\n\n" ++
        "<html><body>Hello Ann</body></html>" ++
        "\r\n--my-boundary-779\r\n" ++
        "Content-Type: text/plain; charset=\"utf-8\"\r\n" ++
        "Content-Transfer-Encoding: base64\r\n" ++
        "Content-Disposition: attachment; filename=transactions.csv\r\n" ++
        "Content-ID: <transactions.csv>\r\n\r\n" ++
        "aWQsZA==" ++ "\r\n--my-boundary-779--") ∧
    buildMail sampleRender "Ann" [] sampleMail sampleFile =
      some (mailHead sampleMail ++ "<html><body>Hello Ann</body></html>" ++
        "\r\n--my-boundary-779\r\nContent-Type: text/plain; charset=\"utf-8\"\r\nContent-Transfer-Encoding: base64\r\nContent-Disposition: attachment; filename=transactions.csv\r\nContent-ID: <transactions.csv>\r\n\r\n" ++
        String.mk (base64_Encode sampleFile) ++ "\r\n--my-boundary-779--") ∧
    base64_Decode "aWQsZA==".toList = some sampleFile ∧
    base64_Decode (base64_Encode sampleFile) = some sampleFile :=
  ⟨rfl, by decide,
    (C8_attachment_roundtrip sampleRender "Ann" [] sampleMail sampleFile
      "<html><body>Hello Ann</body></html>" rfl).1,
    by decide,
    (C8_attachment_roundtrip sampleRender "Ann" [] sampleMail sampleFile
      "<html><body>Hello Ann</body></html>" rfl).2.2.2.1⟩

end Stori
